import Mathlib

/-!
Verification of the Turnstile collector pipeline: shallow embedding of the
persistence merge layer (collector `db.ts`), the L1 correlation / allow-list
scanners (`collectors/l1.ts`) and the `CollectorService.poll` state machine
(`services/collector-service.ts`), together with proofs of the specified
properties (merge frame discipline, convergence, correlation, window bounds,
catch-up short-circuit and cursor monotonicity).
-/

namespace Turnstile

/-! ## Data model

The `tokens` table layout (spec section 6): one row per settlement-chain
address, every non-key field independently nullable.  `updatedAt` is modelled
as an abstract timestamp (`Nat`) supplied by the caller at write time. -/

/-- Allow-list states (spec section 3): PROPOSED, ACCEPTED or REJECTED. -/
inductive AllowListStatus : Type
  | PROPOSED
  | ACCEPTED
  | REJECTED
  deriving DecidableEq, Repr

/-- One stored row of the `tokens` table, keyed by `l1Address`. -/
structure TokenRow where
  l1Address : String
  symbol : Option String
  name : Option String
  decimals : Option Nat
  l2Address : Option String
  l1RegistrationBlock : Option Nat
  l1RegistrationTx : Option String
  l2RegistrationBlock : Option Nat
  l2RegistrationTxIndex : Option Nat
  l2RegistrationLogIndex : Option Nat
  l1AllowListStatus : Option AllowListStatus
  l1AllowListProposalTx : Option String
  l1AllowListResolutionTx : Option String
  updatedAt : Option Nat
  deriving DecidableEq, Repr

/-- The record emitted by `L1Collector.getL1TokenRegistrations` (the `NewToken`
pushed in `collectors/l1.ts`): metadata, normalized L1 address, L1 registration
block and tx hash, and the correlated message's L2 block number. -/
structure L1Registration where
  symbol : String
  name : String
  decimals : Nat
  l1Address : String
  l1RegistrationBlock : Nat
  l1RegistrationTx : String
  l2RegistrationBlock : Nat
  deriving DecidableEq, Repr

/-- The record emitted by `L1Collector.getL1TokenAllowListEvents`. -/
structure AllowListRecord where
  l1Address : String
  l1AllowListStatus : AllowListStatus
  l1AllowListProposalTx : Option String
  l1AllowListResolutionTx : Option String
  deriving DecidableEq, Repr

/-- The record emitted by `L2Collector.getL2TokenRegistrations`
(`collectors/l2.ts`). -/
structure L2Registration where
  l1Address : String
  l2Address : String
  l2RegistrationBlock : Nat
  l2RegistrationTxIndex : Nat
  l2RegistrationLogIndex : Nat
  deriving DecidableEq, Repr

/-- The keyed store behind the merge layer: the `tokens` table as a partial map
from the unique key `l1Address` to the row. -/
def Store : Type := String → Option TokenRow

/-- The empty `tokens` table. -/
def emptyStore : Store := fun _ => none

/-! ## Persistence merge layer (collector `db.ts`) -/

/-- JavaScript's `??` on an event field versus the stored column, as used in the
`onConflictDoUpdate` clause of `storeL1TokenAllowListEvents`: keep the incoming
value when present, otherwise leave the column at its prior value. -/
def jsCoalesce (incoming prior : Option String) : Option String :=
  match incoming with
  | some x => some x
  | none => prior

/-- One upsert of `storeL1TokenRegistrations` (db.ts): insert the registration
as given (fields it does not carry default to null), or on conflict on
`l1Address` assign exactly the registration's own fields (`...registration`)
plus `updatedAt`. -/
def applyL1Registration (now : Nat) (r : L1Registration) (store : Store) : Store :=
  fun k =>
    if k = r.l1Address then
      match store r.l1Address with
      | none =>
          some
            { l1Address := r.l1Address
              symbol := some r.symbol
              name := some r.name
              decimals := some r.decimals
              l2Address := none
              l1RegistrationBlock := some r.l1RegistrationBlock
              l1RegistrationTx := some r.l1RegistrationTx
              l2RegistrationBlock := some r.l2RegistrationBlock
              l2RegistrationTxIndex := none
              l2RegistrationLogIndex := none
              l1AllowListStatus := none
              l1AllowListProposalTx := none
              l1AllowListResolutionTx := none
              updatedAt := some now }
      | some row =>
          some
            { row with
              l1Address := r.l1Address
              symbol := some r.symbol
              name := some r.name
              decimals := some r.decimals
              l1RegistrationBlock := some r.l1RegistrationBlock
              l1RegistrationTx := some r.l1RegistrationTx
              l2RegistrationBlock := some r.l2RegistrationBlock
              updatedAt := some now }
    else store k

/-- `storeL1TokenRegistrations` (db.ts): apply each registration in order. -/
def storeL1TokenRegistrations (now : Nat) (regs : List L1Registration) (store : Store) : Store :=
  regs.foldl (fun s r => applyL1Registration now r s) store

/-- One upsert of `storeL1TokenAllowListEvents` (db.ts): skipped when the
event's `l1Address` is falsy; insert sets the allow-list fields and explicit
nulls for every other field; on conflict update only the allow-list fields,
coalescing the two tx-hash fields with their prior column values. -/
def applyAllowListEvent (now : Nat) (e : AllowListRecord) (store : Store) : Store :=
  if e.l1Address = "" then store
  else
    fun k =>
      if k = e.l1Address then
        match store e.l1Address with
        | none =>
            some
              { l1Address := e.l1Address
                symbol := none
                name := none
                decimals := none
                l2Address := none
                l1RegistrationBlock := none
                l1RegistrationTx := none
                l2RegistrationBlock := none
                l2RegistrationTxIndex := none
                l2RegistrationLogIndex := none
                l1AllowListStatus := some e.l1AllowListStatus
                l1AllowListProposalTx := e.l1AllowListProposalTx
                l1AllowListResolutionTx := e.l1AllowListResolutionTx
                updatedAt := some now }
        | some row =>
            some
              { row with
                l1AllowListStatus := some e.l1AllowListStatus
                l1AllowListProposalTx := jsCoalesce e.l1AllowListProposalTx row.l1AllowListProposalTx
                l1AllowListResolutionTx := jsCoalesce e.l1AllowListResolutionTx row.l1AllowListResolutionTx
                updatedAt := some now }
      else store k

/-- `storeL1TokenAllowListEvents` (db.ts): apply each event in order. -/
def storeL1TokenAllowListEvents (now : Nat) (events : List AllowListRecord) (store : Store) : Store :=
  events.foldl (fun s e => applyAllowListEvent now e s) store

/-- One upsert of `storeL2TokenRegistrations` (db.ts): skipped when the
record's `l1Address` is falsy; insert sets the L2 fields and explicit nulls for
the L1 registration fields; on conflict update only the four L2 fields. -/
def applyL2Registration (now : Nat) (r : L2Registration) (store : Store) : Store :=
  if r.l1Address = "" then store
  else
    fun k =>
      if k = r.l1Address then
        match store r.l1Address with
        | none =>
            some
              { l1Address := r.l1Address
                symbol := none
                name := none
                decimals := none
                l2Address := some r.l2Address
                l1RegistrationBlock := none
                l1RegistrationTx := none
                l2RegistrationBlock := some r.l2RegistrationBlock
                l2RegistrationTxIndex := some r.l2RegistrationTxIndex
                l2RegistrationLogIndex := some r.l2RegistrationLogIndex
                l1AllowListStatus := none
                l1AllowListProposalTx := none
                l1AllowListResolutionTx := none
                updatedAt := some now }
        | some row =>
            some
              { row with
                l2Address := some r.l2Address
                l2RegistrationBlock := some r.l2RegistrationBlock
                l2RegistrationTxIndex := some r.l2RegistrationTxIndex
                l2RegistrationLogIndex := some r.l2RegistrationLogIndex
                updatedAt := some now }
      else store k

/-- `storeL2TokenRegistrations` (db.ts): apply each registration in order. -/
def storeL2TokenRegistrations (now : Nat) (regs : List L2Registration) (store : Store) : Store :=
  regs.foldl (fun s r => applyL2Registration now r s) store

/-- Erase the bookkeeping timestamp of a row, for statements that hold up to
`updatedAt` (every upsert refreshes it). -/
def eraseTime (row : TokenRow) : TokenRow :=
  { row with updatedAt := none }

/-- Store equality up to the `updatedAt` timestamp of every row. -/
def storeEqMod (s t : Store) : Prop :=
  ∀ k, (s k).map eraseTime = (t k).map eraseTime

/-! ## Address normalization (collector `utils/address.ts`)

`normalizeL1Address` validates the address and returns
`getAddress(address).toLowerCase()`; an invalid address throws.  The checksum
round-trip composed with `toLowerCase` is plain hex lowercasing, so the
embedding validates the `0x` + 40-hex-digit shape and lowercases. -/

/-- Hexadecimal digit test used by the address-shape check. -/
def isHexDigitChar (c : Char) : Bool :=
  c.isDigit || ('a' ≤ c && c ≤ 'f') || ('A' ≤ c && c ≤ 'F')

/-- Shape check behind viem's `isAddress`: `0x` followed by 40 hex digits. -/
def isL1AddressShape (s : String) : Bool :=
  match s.data with
  | '0' :: 'x' :: rest => rest.length == 40 && rest.all isHexDigitChar
  | _ => false

/-- ASCII lowercasing of one character (`toLowerCase` acts per character). -/
def toLowerChar (c : Char) : Char :=
  if 65 ≤ c.toNat ∧ c.toNat ≤ 90 then Char.ofNat (c.toNat + 32) else c

/-- ASCII lowercasing of a string. -/
def toLowerString (s : String) : String :=
  ⟨s.data.map toLowerChar⟩

/-- `normalizeL1Address` (utils/address.ts): `none` models the thrown
`Invalid L1 address` error. -/
def normalizeL1Address (s : String) : Option String :=
  if isL1AddressShape s then some (toLowerString s) else none

/-! ## L1 correlation scanner (`collectors/l1.ts`, `getL1TokenRegistrations`)

The chain is abstracted as the two decoded log lists the scanner fetches and a
metadata oracle for the three per-token `readContract` calls.  Thrown errors
surface as `Except.error`; warnings are collected in a list. -/

/-- A decoded portal `Registered` log: event name, optional `token` argument,
block number and transaction hash. -/
structure PortalLog where
  eventName : String
  token : Option String
  blockNumber : Nat
  transactionHash : String
  deriving DecidableEq, Repr

/-- A decoded inbox `MessageSent` log: the `l2BlockNumber` argument and the
transaction hash. -/
structure InboxLog where
  l2BlockNumber : Nat
  transactionHash : String
  deriving DecidableEq, Repr

/-- Result of the three ERC-20 metadata reads for one token address. -/
structure TokenMetadata where
  name : String
  symbol : String
  decimals : Nat
  deriving DecidableEq, Repr

/-- JavaScript falsiness of an optional string (`undefined` or `""`). -/
def jsFalsyString (s : Option String) : Bool :=
  match s with
  | none => true
  | some x => x == ""

/-- JavaScript falsiness of an optional number (`undefined` or `0`). -/
def jsFalsyNumber (n : Option Nat) : Bool :=
  match n with
  | none => true
  | some x => x == 0

/-- The `inboxLogsByTxHash` map: a fold of `Map.set` over the fetched inbox
logs, so a later log with the same transaction hash overwrites an earlier one. -/
def buildInboxMap (inboxLogs : List InboxLog) : String → Option InboxLog :=
  inboxLogs.foldl (fun m l => fun h => if h = l.transactionHash then some l else m h) (fun _ => none)

/-- The warning logged when a portal registration has no correlated inbox log. -/
def noInboxWarning (txHash : String) : String :=
  "No correlated inbox log found for portal registration in tx " ++ txHash

/-- One iteration of the `getL1TokenRegistrations` loop over a portal log:
no correlated inbox log → warn and skip; wrong event name or falsy `token`
argument → skip silently; otherwise resolve metadata and emit the record
(an invalid token address throws). -/
def processPortalLog (meta : String → TokenMetadata) (inboxByTx : String → Option InboxLog)
    (p : PortalLog) : Except String (Option L1Registration × Option String) :=
  match inboxByTx p.transactionHash with
  | none => .ok (none, some (noInboxWarning p.transactionHash))
  | some correlated =>
      if p.eventName != "Registered" || jsFalsyString p.token then .ok (none, none)
      else
        match p.token with
        | none => .ok (none, none)
        | some t =>
            match normalizeL1Address t with
            | none => .error ("Invalid L1 address: " ++ t)
            | some addr =>
                .ok (some
                  { symbol := (meta t).symbol
                    name := (meta t).name
                    decimals := (meta t).decimals
                    l1Address := addr
                    l1RegistrationBlock := p.blockNumber
                    l1RegistrationTx := p.transactionHash
                    l2RegistrationBlock := correlated.l2BlockNumber }, none)

/-- The `getL1TokenRegistrations` loop over the portal logs, accumulating
emitted registrations and logged warnings in iteration order. -/
def scanPortalLogs (meta : String → TokenMetadata) (inboxByTx : String → Option InboxLog) :
    List PortalLog → Except String (List L1Registration × List String)
  | [] => .ok ([], [])
  | p :: rest =>
      match processPortalLog meta inboxByTx p with
      | .error e => .error e
      | .ok (reg?, warn?) =>
          match scanPortalLogs meta inboxByTx rest with
          | .error e => .error e
          | .ok (regs, warns) => .ok (reg?.toList ++ regs, warn?.toList ++ warns)

/-- `L1Collector.getL1TokenRegistrations` over a scanned range, abstracted by
the portal and inbox log lists fetched for that range. -/
def getL1TokenRegistrations (meta : String → TokenMetadata) (portalLogs : List PortalLog)
    (inboxLogs : List InboxLog) : Except String (List L1Registration × List String) :=
  scanPortalLogs meta (buildInboxMap inboxLogs) portalLogs

/-! ## L1 allow-list scanner (`collectors/l1.ts`, `getL1TokenAllowListEvents`)

`allowListStatusNumberToString` lives in `utils/l1.ts`, which is not part of
the sources here; per the spec it maps the numeric status code to one of
PROPOSED/ACCEPTED/REJECTED.  The embedding takes that map as the parameter
`statusMap` (modelled from the spec: any total map into the three-valued
status type). -/

/-- A decoded allow-list `StatusUpdated` log. -/
structure StatusLog where
  eventName : String
  addr : Option String
  status : Option Nat
  transactionHash : String
  deriving DecidableEq, Repr

/-- The warning logged when a `StatusUpdated` log fails the validity check. -/
def allowListWarning (l : StatusLog) : String :=
  "Skipping invalid allowList StatusUpdated log in tx " ++ l.transactionHash

/-- One iteration of the `getL1TokenAllowListEvents` loop: the guard
`eventName !== "StatusUpdated" || !addr || !status` skips with a warning
(JavaScript falsiness, so a missing field, an empty address and the number 0
all fail it); otherwise the status code is mapped, the transaction hash is
recorded as resolution tx for ACCEPTED/REJECTED and as proposal tx otherwise,
and the record is keyed by the normalized address (invalid address throws). -/
def processStatusLog (statusMap : Nat → AllowListStatus) (l : StatusLog) :
    Except String (Option AllowListRecord × Option String) :=
  if l.eventName != "StatusUpdated" || jsFalsyString l.addr || jsFalsyNumber l.status then
    .ok (none, some (allowListWarning l))
  else
    match l.addr, l.status with
    | some a, some s =>
        match normalizeL1Address a with
        | none => .error ("Invalid L1 address: " ++ a)
        | some addr =>
            if statusMap s = .ACCEPTED ∨ statusMap s = .REJECTED then
              .ok (some
                { l1Address := addr
                  l1AllowListStatus := statusMap ((l.status).getD 0)
                  l1AllowListProposalTx := none
                  l1AllowListResolutionTx := some l.transactionHash }, none)
            else
              .ok (some
                { l1Address := addr
                  l1AllowListStatus := statusMap ((l.status).getD 0)
                  l1AllowListProposalTx := some l.transactionHash
                  l1AllowListResolutionTx := none }, none)
    | _, _ => .ok (none, some (allowListWarning l))

/-- The `getL1TokenAllowListEvents` loop over the fetched `StatusUpdated`
logs, accumulating emitted records and logged warnings in iteration order. -/
def scanStatusLogs (statusMap : Nat → AllowListStatus) :
    List StatusLog → Except String (List AllowListRecord × List String)
  | [] => .ok ([], [])
  | l :: rest =>
      match processStatusLog statusMap l with
      | .error e => .error e
      | .ok (rec?, warn?) =>
          match scanStatusLogs statusMap rest with
          | .error e => .error e
          | .ok (recs, warns) => .ok (rec?.toList ++ recs, warn?.toList ++ warns)

/-- `L1Collector.getL1TokenAllowListEvents` over a scanned range, abstracted by
the `StatusUpdated` log list fetched for that range. -/
def getL1TokenAllowListEvents (statusMap : Nat → AllowListStatus) (logs : List StatusLog) :
    Except String (List AllowListRecord × List String) :=
  scanStatusLogs statusMap logs

/-! ## CollectorService (`services/collector-service.ts`)

`poll()` reads both cursors, computes the per-chain scan window, short-circuits
when both chains are caught up, and otherwise scans, persists and advances L1
then L2.  The progress store (`services/block-progress.ts` is not part of the
sources here) is modelled from the spec, section 4.4: one last-scanned block
number per chain, 0 when never set, overwritten by each advance; it lives in
the two cursor fields of `CollectorState`.  The chain heads and the two
scanners are abstracted into a per-poll environment. -/

/-- Resolved per-chain configuration: `startBlock` and `chunkSize`. -/
structure ChainConfig where
  startBlock : Nat
  chunkSize : Nat
  deriving DecidableEq, Repr

/-- Resolved `CollectorService` configuration for both chains. -/
structure ServiceConfig where
  l1 : ChainConfig
  l2 : ChainConfig
  deriving DecidableEq, Repr

/-- External observations of one `poll()` call: both chain heads, what each
scanner returns for a window, and the wall-clock time used for `updatedAt`. -/
structure PollEnv where
  l1Head : Nat
  l2Head : Nat
  l1Scan : Nat → Nat → List L1Registration
  l2Scan : Nat → Nat → List L2Registration
  now : Nat

/-- Persistent state across `poll()` calls: the two progress cursors and the
`tokens` table. -/
structure CollectorState where
  l1Cursor : Nat
  l2Cursor : Nat
  store : Store

/-- Observable effect of a `poll()` call, for stating which scanner,
persistence and cursor-advance calls it performs. -/
inductive PollAction : Type
  | scanL1 (fromBlock toBlock : Nat)
  | persistL1 (regs : List L1Registration)
  | advanceL1 (toBlock : Nat)
  | scanL2 (fromBlock toBlock : Nat)
  | persistL2 (regs : List L2Registration)
  | advanceL2 (toBlock : Nat)
  deriving DecidableEq, Repr

/-- The from-block computation of `poll()`: the configured start block
substitutes for a cursor that is still 0 (and itself truthy), otherwise the
window starts right after the cursor. -/
def computeFromBlock (startBlock cursor : Nat) : Nat :=
  if cursor = 0 ∧ startBlock ≠ 0 then startBlock else cursor + 1

/-- The to-block computation of `poll()`:
`Math.min(fromBlock + chunkSize - 1, head)`. -/
def computeToBlock (fromBlock chunkSize head : Nat) : Nat :=
  min (fromBlock + chunkSize - 1) head

/-- Body of `poll()` given the two computed from-blocks: short-circuit when
both chains are caught up, otherwise scan/persist/advance L1 then L2 and
return whether both chains are now caught up, the new state and the effect
trace. -/
def pollCore (fromL1 fromL2 : Nat) (cfg : ServiceConfig) (env : PollEnv)
    (st : CollectorState) : Bool × CollectorState × List PollAction :=
  let toL1 := computeToBlock fromL1 cfg.l1.chunkSize env.l1Head
  let toL2 := computeToBlock fromL2 cfg.l2.chunkSize env.l2Head
  if fromL1 > env.l1Head ∧ fromL2 > env.l2Head then (true, st, [])
  else
    let step1 : Bool × CollectorState × List PollAction :=
      if fromL1 > env.l1Head then (true, st, [])
      else
        let regs := env.l1Scan fromL1 toL1
        (decide (toL1 ≥ env.l1Head),
          { st with store := storeL1TokenRegistrations env.now regs st.store, l1Cursor := toL1 },
          [PollAction.scanL1 fromL1 toL1] ++
            (if regs.isEmpty then [] else [PollAction.persistL1 regs]) ++
            [PollAction.advanceL1 toL1])
    let st1 := step1.2.1
    let step2 : Bool × CollectorState × List PollAction :=
      if fromL2 > env.l2Head then (true, st1, [])
      else
        let regs := env.l2Scan fromL2 toL2
        (decide (toL2 ≥ env.l2Head),
          { st1 with store := storeL2TokenRegistrations env.now regs st1.store, l2Cursor := toL2 },
          [PollAction.scanL2 fromL2 toL2] ++
            (if regs.isEmpty then [] else [PollAction.persistL2 regs]) ++
            [PollAction.advanceL2 toL2])
    (step1.1 && step2.1, step2.2.1, step1.2.2 ++ step2.2.2)

/-- `CollectorService.poll()`: from-blocks computed from the stored cursors
and the configured start blocks. -/
def poll (cfg : ServiceConfig) (env : PollEnv) (st : CollectorState) :
    Bool × CollectorState × List PollAction :=
  pollCore (computeFromBlock cfg.l1.startBlock st.l1Cursor)
    (computeFromBlock cfg.l2.startBlock st.l2Cursor) cfg env st

/-- State reached by one `poll()` call. -/
def pollStep (cfg : ServiceConfig) (env : PollEnv) (st : CollectorState) : CollectorState :=
  (poll cfg env st).2.1

/-- State reached by a sequence of successful `poll()` calls, one per
environment in the list. -/
def pollTrace (cfg : ServiceConfig) (envs : List PollEnv) (st : CollectorState) : CollectorState :=
  envs.foldl (fun s e => pollStep cfg e s) st

/-- Modelled from the spec: the backfill override start block
(`FORCE_L1_START_BLOCK` / `FORCE_L2_START_BLOCK`, spec sections 4.6 and 6 and
the repository README).  The `CollectorService` variant implementing it is not
part of the sources here; per the spec, a configured override wins over the
stored cursor on every poll call. -/
structure OverrideServiceConfig where
  base : ServiceConfig
  l1OverrideStartBlock : Option Nat
  l2OverrideStartBlock : Option Nat

/-- Modelled from the spec: from-block resolution in backfill mode — a
configured override start block always wins over the stored cursor; without
one, the normal `computeFromBlock` rule applies. -/
def computeFromBlockWithOverride (override : Option Nat) (startBlock cursor : Nat) : Nat :=
  match override with
  | some o => o
  | none => computeFromBlock startBlock cursor

/-- Modelled from the spec: `poll()` in backfill mode, identical state machine
with the override-aware from-block resolution. -/
def pollWithOverride (cfg : OverrideServiceConfig) (env : PollEnv) (st : CollectorState) :
    Bool × CollectorState × List PollAction :=
  pollCore (computeFromBlockWithOverride cfg.l1OverrideStartBlock cfg.base.l1.startBlock st.l1Cursor)
    (computeFromBlockWithOverride cfg.l2OverrideStartBlock cfg.base.l2.startBlock st.l2Cursor)
    cfg.base env st

/-! ## Sample data, used to instantiate the universally quantified theorems -/

/-- A fully populated stored row for key `"0x1"`. -/
def sampleRow : TokenRow :=
  { l1Address := "0x1"
    symbol := some "OLD"
    name := some "Old Token"
    decimals := some 8
    l2Address := some "0xl2"
    l1RegistrationBlock := some 3
    l1RegistrationTx := some "0xr"
    l2RegistrationBlock := some 9
    l2RegistrationTxIndex := some 1
    l2RegistrationLogIndex := some 2
    l1AllowListStatus := some .PROPOSED
    l1AllowListProposalTx := some "0xp"
    l1AllowListResolutionTx := none
    updatedAt := some 0 }

/-- A one-row `tokens` table holding `sampleRow` under key `"0x1"`. -/
def sampleStore : Store := fun k => if k = "0x1" then some sampleRow else none

/-- An L1 registration for key `"0x1"` with symbol TEST and 18 decimals. -/
def sampleL1Reg : L1Registration := ⟨"TEST", "Test Token", 18, "0x1", 1, "0xabc", 100⟩

/-- An allow-list ACCEPTED resolution event for key `"0x1"`. -/
def sampleAccepted : AllowListRecord := ⟨"0x1", .ACCEPTED, none, some "0xdef"⟩

/-- An L2 registration for key `"0x1"` (L2 block 100, matching `sampleL1Reg`). -/
def sampleL2Reg : L2Registration := ⟨"0x1", "0xbbb", 100, 0, 1⟩

/-- A concrete status-code table: 2 is ACCEPTED, 3 is REJECTED, else PROPOSED. -/
def sampleStatusMap : Nat → AllowListStatus :=
  fun n => if n = 2 then .ACCEPTED else if n = 3 then .REJECTED else .PROPOSED

/-- A constant metadata oracle. -/
def sampleMeta : String → TokenMetadata := fun _ => ⟨"Test Token", "TEST", 18⟩

/-- A valid portal `Registered` log in transaction `"0xh"`. -/
def samplePortalLog : PortalLog :=
  ⟨"Registered", some "0xABCDEF1111111111111111111111111111111111", 7, "0xh"⟩

/-- An inbox `MessageSent` log in transaction `"0xh"` carrying L2 block 100. -/
def sampleInboxLog : InboxLog := ⟨100, "0xh"⟩

/-- An allow-list `StatusUpdated` log with status code 3 in transaction `"0xt"`. -/
def sampleStatusLog : StatusLog :=
  ⟨"StatusUpdated", some "0xABCDEF1111111111111111111111111111111111", some 3, "0xt"⟩

/-- `CollectorService` configuration: L1 start 0 / chunk 1000, L2 start 1 / chunk 100. -/
def sampleCfg : ServiceConfig := ⟨⟨0, 1000⟩, ⟨1, 100⟩⟩

/-- A poll environment whose chains are at heads 3 and 4 with idle scanners. -/
def sampleEnv : PollEnv := ⟨3, 4, fun _ _ => [], fun _ _ => [], 0⟩

/-- A collector state with cursors 5 and 6 over the empty store. -/
def sampleState : CollectorState := ⟨5, 6, emptyStore⟩

/-- A backfill configuration forcing the L1 start block to 17. -/
def sampleOverrideCfg : OverrideServiceConfig := ⟨sampleCfg, some 17, none⟩

/-- A backfill configuration forcing the L2 start block to 3. -/
def sampleOverrideCfgL2 : OverrideServiceConfig := ⟨sampleCfg, none, some 3⟩

/-- A poll environment with L1 head 100 and L2 head 4 and idle scanners. -/
def sampleBackfillEnv : PollEnv := ⟨100, 4, fun _ _ => [], fun _ _ => [], 0⟩

/-! ## Merge-layer frame discipline -/

/-- C1: every conflict update of the merge layer assigns only the fields its
event type supplies and leaves every other field at its prior value: an L1
registration updates exactly the seven fields of the registration record (and
`updatedAt`), an allow-list event updates exactly the three allow-list fields
(coalescing the tx hashes with their prior values), an L2 registration updates
exactly the four L2 fields; rows under other keys are untouched; and applying
an L1 registration (symbol TEST, decimals 18) followed by an allow-list
ACCEPTED event for the same address yields a record with both symbol TEST and
status ACCEPTED. -/
theorem merge_frame_discipline :
    (∀ (now : Nat) (r : L1Registration) (store : Store) (row : TokenRow),
      store r.l1Address = some row →
        applyL1Registration now r store r.l1Address =
          some { row with
            l1Address := r.l1Address
            symbol := some r.symbol
            name := some r.name
            decimals := some r.decimals
            l1RegistrationBlock := some r.l1RegistrationBlock
            l1RegistrationTx := some r.l1RegistrationTx
            l2RegistrationBlock := some r.l2RegistrationBlock
            updatedAt := some now }) ∧
    (∀ (now : Nat) (r : L1Registration) (store : Store) (k : String),
      k ≠ r.l1Address → applyL1Registration now r store k = store k) ∧
    (∀ (now : Nat) (e : AllowListRecord) (store : Store) (row : TokenRow),
      e.l1Address ≠ "" → store e.l1Address = some row →
        applyAllowListEvent now e store e.l1Address =
          some { row with
            l1AllowListStatus := some e.l1AllowListStatus
            l1AllowListProposalTx := jsCoalesce e.l1AllowListProposalTx row.l1AllowListProposalTx
            l1AllowListResolutionTx := jsCoalesce e.l1AllowListResolutionTx row.l1AllowListResolutionTx
            updatedAt := some now }) ∧
    (∀ (now : Nat) (e : AllowListRecord) (store : Store) (k : String),
      e.l1Address ≠ "" → k ≠ e.l1Address → applyAllowListEvent now e store k = store k) ∧
    (∀ (now : Nat) (r : L2Registration) (store : Store) (row : TokenRow),
      r.l1Address ≠ "" → store r.l1Address = some row →
        applyL2Registration now r store r.l1Address =
          some { row with
            l2Address := some r.l2Address
            l2RegistrationBlock := some r.l2RegistrationBlock
            l2RegistrationTxIndex := some r.l2RegistrationTxIndex
            l2RegistrationLogIndex := some r.l2RegistrationLogIndex
            updatedAt := some now }) ∧
    (∀ (now : Nat) (r : L2Registration) (store : Store) (k : String),
      r.l1Address ≠ "" → k ≠ r.l1Address → applyL2Registration now r store k = store k) ∧
    ((applyAllowListEvent 1 sampleAccepted (applyL1Registration 0 sampleL1Reg emptyStore)
        "0x1").map (fun row => (row.symbol, row.l1AllowListStatus)) =
      some (some "TEST", some .ACCEPTED)) := by
  refine ⟨?_, ?_, ?_, ?_, ?_, ?_, ?_⟩
  · intro now r store row h
    simp [applyL1Registration, h]
  · intro now r store k hk
    simp [applyL1Registration, hk]
  · intro now e store row hne h
    simp [applyAllowListEvent, hne, h]
  · intro now e store k hne hk
    simp [applyAllowListEvent, hne, hk]
  · intro now r store row hne h
    simp [applyL2Registration, hne, h]
  · intro now r store k hne hk
    simp [applyL2Registration, hne, hk]
  · decide

/-- Witness for C1 at concrete inputs: the allow-list conflict update on
`sampleStore` keeps every registration field of `sampleRow` and assigns the
allow-list fields. -/
theorem merge_frame_discipline_witness :
    sampleStore "0x1" = some sampleRow ∧
    applyAllowListEvent 1 sampleAccepted sampleStore "0x1" =
      some { sampleRow with
        l1AllowListStatus := some AllowListStatus.ACCEPTED
        l1AllowListProposalTx := some "0xp"
        l1AllowListResolutionTx := some "0xdef"
        updatedAt := some 1 } := by
  have h := merge_frame_discipline.2.2.1 1 sampleAccepted sampleStore sampleRow
    (by decide) (by decide)
  exact ⟨by decide, by rw [show (sampleAccepted.l1Address) = "0x1" from rfl] at h; exact h⟩

/-! ## Merge-layer convergence -/

/-- Upserts of the same L1 registration differ only in the timestamp they
write. -/
lemma applyL1Registration_time (t1 t2 : Nat) (r : L1Registration) (store : Store) (k : String) :
    (applyL1Registration t1 r store k).map eraseTime =
      (applyL1Registration t2 r store k).map eraseTime := by
  unfold applyL1Registration
  by_cases hk : k = r.l1Address
  · simp only [hk, if_pos]
    cases h : store r.l1Address <;> rfl
  · simp [hk]

/-- Upserts of the same allow-list event differ only in the timestamp they
write. -/
lemma applyAllowListEvent_time (t1 t2 : Nat) (e : AllowListRecord) (store : Store) (k : String) :
    (applyAllowListEvent t1 e store k).map eraseTime =
      (applyAllowListEvent t2 e store k).map eraseTime := by
  unfold applyAllowListEvent
  by_cases hg : e.l1Address = ""
  · simp [hg]
  · simp only [hg, ite_false, if_neg]
    by_cases hk : k = e.l1Address
    · simp only [hk, if_pos]
      cases h : store e.l1Address <;> rfl
    · simp [hk]

/-- Upserts of the same L2 registration differ only in the timestamp they
write. -/
lemma applyL2Registration_time (t1 t2 : Nat) (r : L2Registration) (store : Store) (k : String) :
    (applyL2Registration t1 r store k).map eraseTime =
      (applyL2Registration t2 r store k).map eraseTime := by
  unfold applyL2Registration
  by_cases hg : r.l1Address = ""
  · simp [hg]
  · simp only [hg, ite_false, if_neg]
    by_cases hk : k = r.l1Address
    · simp only [hk, if_pos]
      cases h : store r.l1Address <;> rfl
    · simp [hk]

/-- C2 counterexample: application through the merge layer is not commutative.
Applying a PROPOSED event then an ACCEPTED event for the same key and, in the
other order, an ACCEPTED event then a PROPOSED event, yields different final
records (ACCEPTED versus PROPOSED) even after discarding the `updatedAt`
timestamp — so the final stored record depends on the temporal order. -/
theorem merge_convergence_counterexample :
    (applyAllowListEvent 0 ⟨"0x1", .ACCEPTED, none, some "0xt2"⟩
        (applyAllowListEvent 0 ⟨"0x1", .PROPOSED, some "0xt1", none⟩ emptyStore) "0x1").map
        eraseTime ≠
      (applyAllowListEvent 0 ⟨"0x1", .PROPOSED, some "0xt1", none⟩
        (applyAllowListEvent 0 ⟨"0x1", .ACCEPTED, none, some "0xt2"⟩ emptyStore) "0x1").map
        eraseTime := by
  decide

/-- C2 (amended): restricted to records of pairwise distinct event types that
agree on the one field two types share (an L1 and an L2 registration for the
same key must carry the same `l2RegistrationBlock`), merge-layer application
commutes, and immediately re-applying an already-applied record is a no-op —
both up to the `updatedAt` timestamp, which every upsert refreshes.  For two
records of the same event type, or records disagreeing on the shared field,
the final record depends on the order (see the counterexample). -/
theorem merge_convergence_amended :
    (∀ (t1 t2 : Nat) (r : L1Registration) (e : AllowListRecord) (store : Store),
      storeEqMod (applyAllowListEvent t2 e (applyL1Registration t1 r store))
        (applyL1Registration t2 r (applyAllowListEvent t1 e store))) ∧
    (∀ (t1 t2 : Nat) (r : L1Registration) (s : L2Registration) (store : Store),
      (r.l1Address = s.l1Address → r.l2RegistrationBlock = s.l2RegistrationBlock) →
        storeEqMod (applyL2Registration t2 s (applyL1Registration t1 r store))
          (applyL1Registration t2 r (applyL2Registration t1 s store))) ∧
    (∀ (t1 t2 : Nat) (e : AllowListRecord) (s : L2Registration) (store : Store),
      storeEqMod (applyL2Registration t2 s (applyAllowListEvent t1 e store))
        (applyAllowListEvent t2 e (applyL2Registration t1 s store))) ∧
    (∀ (t1 t2 : Nat) (r : L1Registration) (store : Store),
      storeEqMod (applyL1Registration t2 r (applyL1Registration t1 r store))
        (applyL1Registration t1 r store)) ∧
    (∀ (t1 t2 : Nat) (e : AllowListRecord) (store : Store),
      storeEqMod (applyAllowListEvent t2 e (applyAllowListEvent t1 e store))
        (applyAllowListEvent t1 e store)) ∧
    (∀ (t1 t2 : Nat) (s : L2Registration) (store : Store),
      storeEqMod (applyL2Registration t2 s (applyL2Registration t1 s store))
        (applyL2Registration t1 s store)) := by
  refine ⟨?_, ?_, ?_, ?_, ?_, ?_⟩
  · intro t1 t2 r e store k
    obtain ⟨sym, nm, dec, a, rb, rt, l2b⟩ := r
    obtain ⟨a', est, pt, rt'⟩ := e
    by_cases hg : a' = ""
    · simp only [applyAllowListEvent, hg, if_pos]
      exact applyL1Registration_time t1 t2 _ store k
    · by_cases haa : a = a'
      · subst haa
        by_cases hk : k = a
        · subst hk
          cases h : store k with
          | none =>
              simp [applyAllowListEvent, applyL1Registration, hg, h]
              cases pt <;> cases rt' <;> rfl
          | some row =>
              simp [applyAllowListEvent, applyL1Registration, hg, h]
        · simp [applyAllowListEvent, applyL1Registration, hg, hk]
      · by_cases hk1 : k = a
        · subst hk1
          have hk2 : k ≠ a' := fun hh => haa hh
          simp only [applyAllowListEvent, applyL1Registration, hg, if_neg, ite_false]
          simp only [if_neg hk2, if_pos rfl]
          cases h : store k <;> simp [h] <;> rfl
        · by_cases hk2 : k = a'
          · subst hk2
            simp [applyAllowListEvent, applyL1Registration, hg, hk1, Ne.symm]
            cases h : store k <;> simp [h] <;> rfl
          · simp [applyAllowListEvent, applyL1Registration, hg, hk1, hk2]
  · intro t1 t2 r s store hagree k
    obtain ⟨sym, nm, dec, a, rb, rt, l2b⟩ := r
    obtain ⟨a', l2a, l2b', txi, logi⟩ := s
    simp only at hagree
    by_cases hg : a' = ""
    · simp only [applyL2Registration, hg, if_pos]
      exact applyL1Registration_time t1 t2 _ store k
    · by_cases haa : a = a'
      · subst haa
        have hb : l2b = l2b' := hagree rfl
        subst hb
        by_cases hk : k = a
        · subst hk
          cases h : store k with
          | none => simp [applyL2Registration, applyL1Registration, hg, h, eraseTime]
          | some row => simp [applyL2Registration, applyL1Registration, hg, h, eraseTime]
        · simp [applyL2Registration, applyL1Registration, hg, hk]
      · by_cases hk1 : k = a
        · subst hk1
          have hk2 : k ≠ a' := fun hh => haa hh
          simp only [applyL2Registration, applyL1Registration, hg, ite_false, if_neg]
          simp only [if_neg hk2, if_pos rfl]
          cases h : store k <;> simp [h] <;> rfl
        · by_cases hk2 : k = a'
          · subst hk2
            simp [applyL2Registration, applyL1Registration, hg, hk1]
            cases h : store k <;> simp [h] <;> rfl
          · simp [applyL2Registration, applyL1Registration, hg, hk1, hk2]
  · intro t1 t2 e s store k
    obtain ⟨a, est, pt, rt'⟩ := e
    obtain ⟨a', l2a, l2b', txi, logi⟩ := s
    by_cases hg : a = ""
    · simp only [applyAllowListEvent, hg, if_pos]
      exact applyL2Registration_time t2 t1 _ store k
    · by_cases hg' : a' = ""
      · simp only [applyL2Registration, hg', if_pos]
        exact applyAllowListEvent_time t1 t2 _ store k
      · by_cases haa : a = a'
        · subst haa
          by_cases hk : k = a
          · subst hk
            cases h : store k with
            | none =>
                simp [applyL2Registration, applyAllowListEvent, hg, h, eraseTime]
                cases pt <;> cases rt' <;> simp [jsCoalesce]
            | some row => simp [applyL2Registration, applyAllowListEvent, hg, h, eraseTime]
          · simp [applyL2Registration, applyAllowListEvent, hg, hk]
        · by_cases hk1 : k = a
          · subst hk1
            have hk2 : k ≠ a' := fun hh => haa hh
            simp only [applyL2Registration, applyAllowListEvent, hg, hg', ite_false, if_neg]
            simp only [if_neg hk2, if_pos rfl]
            cases h : store k <;> simp [h] <;> rfl
          · by_cases hk2 : k = a'
            · subst hk2
              simp [applyL2Registration, applyAllowListEvent, hg, hg', hk1]
              cases h : store k <;> simp [h] <;> rfl
            · simp [applyL2Registration, applyAllowListEvent, hg, hg', hk1, hk2]
  · intro t1 t2 r store k
    obtain ⟨sym, nm, dec, a, rb, rt, l2b⟩ := r
    by_cases hk : k = a
    · subst hk
      cases h : store k with
      | none => simp [applyL1Registration, h, eraseTime]
      | some row => simp [applyL1Registration, h, eraseTime]
    · simp [applyL1Registration, hk]
  · intro t1 t2 e store k
    obtain ⟨a, est, pt, rt'⟩ := e
    by_cases hg : a = ""
    · simp [applyAllowListEvent, hg]
    · by_cases hk : k = a
      · subst hk
        cases h : store k with
        | none =>
            simp [applyAllowListEvent, hg, h, eraseTime]
            cases pt <;> cases rt' <;> simp [jsCoalesce, eraseTime]
        | some row =>
            simp [applyAllowListEvent, hg, h, eraseTime]
            cases pt <;> cases rt' <;> simp [jsCoalesce, eraseTime]
      · simp [applyAllowListEvent, hg, hk]
  · intro t1 t2 s store k
    obtain ⟨a, l2a, l2b, txi, logi⟩ := s
    by_cases hg : a = ""
    · simp [applyL2Registration, hg]
    · by_cases hk : k = a
      · subst hk
        cases h : store k with
        | none => simp [applyL2Registration, hg, h, eraseTime]
        | some row => simp [applyL2Registration, hg, h, eraseTime]
      · simp [applyL2Registration, hg, hk]

/-- Witness for C2 (amended) at concrete inputs: the L1 registration and the
L2 registration for key `"0x1"` (both carrying L2 block 100) commute on the
empty store up to `updatedAt`. -/
theorem merge_convergence_amended_witness :
    (applyL2Registration 5 sampleL2Reg (applyL1Registration 3 sampleL1Reg emptyStore) "0x1").map
        eraseTime =
      (applyL1Registration 5 sampleL1Reg (applyL2Registration 3 sampleL2Reg emptyStore) "0x1").map
        eraseTime :=
  merge_convergence_amended.2.1 3 5 sampleL1Reg sampleL2Reg emptyStore (fun _ => rfl) "0x1"

/-! ## L1 correlation scanner -/

/-- The fold building `inboxLogsByTxHash` looks up to the last matching log,
falling back to the initial map. -/
lemma buildInboxMap_foldl (ils : List InboxLog) (init : String → Option InboxLog) (h : String) :
    ils.foldl (fun m l => fun h' => if h' = l.transactionHash then some l else m h') init h =
      ((ils.reverse.find? (fun l => l.transactionHash == h)).or (init h)) := by
  induction ils generalizing init with
  | nil => simp
  | cons l rest ih =>
      simp only [List.foldl_cons, List.reverse_cons]
      rw [ih, List.find?_append]
      cases hf : rest.reverse.find? (fun l => l.transactionHash == h) with
      | some x => simp
      | none =>
          simp only [Option.none_or]
          rw [List.find?_cons]
          by_cases heq : l.transactionHash = h
          · simp [heq]
          · have hb : (l.transactionHash == h) = false := by simp [heq]
            simp [hb, Ne.symm heq]

/-- C3: in `getL1TokenRegistrations`, a portal `Registered` event whose
transaction hash has a correlated `MessageSent` inbox event contributes exactly
one registration record — metadata resolved through the oracle, the normalized
lowercase L1 address, the portal event's block number and transaction hash, and
the correlated message's `l2BlockNumber` — while a portal event with no
correlated inbox event contributes no record and exactly one warning naming its
transaction hash; in both cases the remaining portal events are still
processed (the result is the processed tail with the one record or warning
prepended); and normalization lowercases the address. -/
theorem l1_correlation_scan :
    (∀ (meta : String → TokenMetadata) (ils : List InboxLog) (p : PortalLog)
        (rest : List PortalLog),
      buildInboxMap ils p.transactionHash = none →
        getL1TokenRegistrations meta (p :: rest) ils =
          Except.map (fun x => (x.1, noInboxWarning p.transactionHash :: x.2))
            (getL1TokenRegistrations meta rest ils)) ∧
    (∀ (meta : String → TokenMetadata) (ils : List InboxLog) (p : PortalLog)
        (rest : List PortalLog) (ib : InboxLog) (t a : String),
      buildInboxMap ils p.transactionHash = some ib →
      p.eventName = "Registered" → p.token = some t → t ≠ "" →
      normalizeL1Address t = some a →
        getL1TokenRegistrations meta (p :: rest) ils =
          Except.map (fun x =>
            ({ symbol := (meta t).symbol, name := (meta t).name, decimals := (meta t).decimals,
               l1Address := a, l1RegistrationBlock := p.blockNumber,
               l1RegistrationTx := p.transactionHash,
               l2RegistrationBlock := ib.l2BlockNumber } :: x.1, x.2))
            (getL1TokenRegistrations meta rest ils)) ∧
    (∀ t a : String, normalizeL1Address t = some a → a = toLowerString t) := by
  refine ⟨?_, ?_, ?_⟩
  · intro meta ils p rest hnone
    unfold getL1TokenRegistrations
    rw [scanPortalLogs]
    simp only [processPortalLog, hnone]
    cases hres : scanPortalLogs meta (buildInboxMap ils) rest <;> simp [Except.map]
  · intro meta ils p rest ib t a hib hname htok hne hnorm
    unfold getL1TokenRegistrations
    rw [scanPortalLogs]
    simp only [processPortalLog, hib, hname, htok, jsFalsyString, hne, hnorm]
    cases hres : scanPortalLogs meta (buildInboxMap ils) rest <;> simp_all [Except.map]
  · intro t a h
    unfold normalizeL1Address at h
    split at h
    · exact (Option.some.inj h).symm
    · exact absurd h (by simp)

/-- Witness for C3 at concrete inputs: one matched portal event yields exactly
the one resolved record, and one unmatched portal event yields no record and
one warning naming its transaction hash. -/
theorem l1_correlation_scan_witness :
    getL1TokenRegistrations sampleMeta [samplePortalLog] [sampleInboxLog] =
      .ok ([{ symbol := "TEST", name := "Test Token", decimals := 18,
              l1Address := "0xabcdef1111111111111111111111111111111111",
              l1RegistrationBlock := 7, l1RegistrationTx := "0xh",
              l2RegistrationBlock := 100 }], []) ∧
    getL1TokenRegistrations sampleMeta [⟨"Registered", some "0x1111111111111111111111111111111111111111", 7, "0xzz"⟩]
        [sampleInboxLog] =
      .ok ([], [noInboxWarning "0xzz"]) := by
  constructor
  · rw [l1_correlation_scan.2.1 sampleMeta [sampleInboxLog] samplePortalLog []
      sampleInboxLog "0xABCDEF1111111111111111111111111111111111"
      "0xabcdef1111111111111111111111111111111111" (by decide) rfl rfl (by decide) (by decide)]
    rfl
  · rw [l1_correlation_scan.1 sampleMeta [sampleInboxLog]
      ⟨"Registered", some "0x1111111111111111111111111111111111111111", 7, "0xzz"⟩ [] (by decide)]
    rfl

/-- C9: the `inboxLogsByTxHash` lookup retains, for each transaction hash, the
inbox log appearing last in iteration order of the fetched list (the lookup
equals `find?` on the reversed list); concretely, with two inbox events sharing
transaction hash `0xh` (L2 blocks 100 then 200), a portal `Registered` event
with that hash emits exactly one record carrying the later event's L2 block
200, and the earlier event contributes to no emitted record. -/
theorem inbox_map_last_wins :
    (∀ (ils : List InboxLog) (h : String),
      buildInboxMap ils h = ils.reverse.find? (fun l => l.transactionHash == h)) ∧
    ((getL1TokenRegistrations sampleMeta [samplePortalLog]
        [⟨100, "0xh"⟩, ⟨200, "0xh"⟩]).toOption =
      some ([{ symbol := "TEST", name := "Test Token", decimals := 18,
               l1Address := "0xabcdef1111111111111111111111111111111111",
               l1RegistrationBlock := 7, l1RegistrationTx := "0xh",
               l2RegistrationBlock := 200 }], [])) := by
  constructor
  · intro ils h
    rw [buildInboxMap, buildInboxMap_foldl]
    simp
  · decide

/-! ## L1 allow-list scanner -/

/-- C8: a `StatusUpdated` log passing the validity check (event name matches,
address present and non-empty, status code present and non-zero) is mapped
through the status table into one of the three allow-list statuses and emits
exactly one record keyed by the normalized address: for ACCEPTED or REJECTED
the transaction hash is recorded as the resolution transaction and the
proposal transaction is left unset, otherwise as the proposal transaction;
and merging such a resolution record leaves the stored proposal transaction at
its prior value on an existing row, or unknown on a fresh row. -/
theorem allowlist_status_mapping :
    ∀ (statusMap : Nat → AllowListStatus) (l : StatusLog) (a : String) (s : Nat)
      (addr : String) (now : Nat) (store : Store) (row : TokenRow),
      l.eventName = "StatusUpdated" → l.addr = some a → a ≠ "" →
      l.status = some s → s ≠ 0 → normalizeL1Address a = some addr → addr ≠ "" →
      store addr = some row →
      (processStatusLog statusMap l =
        .ok (some
          { l1Address := addr
            l1AllowListStatus := statusMap s
            l1AllowListProposalTx :=
              if statusMap s = .ACCEPTED ∨ statusMap s = .REJECTED then none
              else some l.transactionHash
            l1AllowListResolutionTx :=
              if statusMap s = .ACCEPTED ∨ statusMap s = .REJECTED then some l.transactionHash
              else none }, none)) ∧
      ((statusMap s = .ACCEPTED ∨ statusMap s = .REJECTED) →
        applyAllowListEvent now ⟨addr, statusMap s, none, some l.transactionHash⟩ store addr =
          some { row with
            l1AllowListStatus := some (statusMap s)
            l1AllowListResolutionTx := some l.transactionHash
            updatedAt := some now }) ∧
      (applyAllowListEvent now ⟨addr, statusMap s, none, some l.transactionHash⟩ emptyStore addr =
        some
          { l1Address := addr, symbol := none, name := none, decimals := none, l2Address := none,
            l1RegistrationBlock := none, l1RegistrationTx := none, l2RegistrationBlock := none,
            l2RegistrationTxIndex := none, l2RegistrationLogIndex := none,
            l1AllowListStatus := some (statusMap s), l1AllowListProposalTx := none,
            l1AllowListResolutionTx := some l.transactionHash, updatedAt := some now }) := by
  intro statusMap l a s addr now store row h1 h2 h3 h4 h5 h6 h7 h8
  refine ⟨?_, ?_, ?_⟩
  · unfold processStatusLog
    simp only [h1, h2, h4, jsFalsyString, jsFalsyNumber, h3, h5, h6]
    by_cases hres : statusMap s = .ACCEPTED ∨ statusMap s = .REJECTED
    · simp [hres]
      exact ⟨h3, h5⟩
    · simp [hres]
      exact ⟨h3, h5⟩
  · intro hres
    simp [applyAllowListEvent, h7, h8, jsCoalesce]
  · simp [applyAllowListEvent, h7, emptyStore]

/-- Witness for C8 at concrete inputs: status code 3 maps to REJECTED under
the sample table, the transaction hash lands in the resolution field, and the
merge keeps `sampleRow`'s proposal transaction. -/
theorem allowlist_status_mapping_witness :
    processStatusLog sampleStatusMap sampleStatusLog =
      .ok (some
        { l1Address := "0xabcdef1111111111111111111111111111111111"
          l1AllowListStatus := .REJECTED
          l1AllowListProposalTx := none
          l1AllowListResolutionTx := some "0xt" }, none) ∧
    applyAllowListEvent 1
        ⟨"0xabcdef1111111111111111111111111111111111", .REJECTED, none, some "0xt"⟩
        (fun k => if k = "0xabcdef1111111111111111111111111111111111" then some sampleRow else none)
        "0xabcdef1111111111111111111111111111111111" =
      some { sampleRow with
        l1AllowListStatus := some .REJECTED
        l1AllowListResolutionTx := some "0xt"
        updatedAt := some 1 } := by
  have h := allowlist_status_mapping sampleStatusMap sampleStatusLog
    "0xABCDEF1111111111111111111111111111111111" 3
    "0xabcdef1111111111111111111111111111111111" 1
    (fun k => if k = "0xabcdef1111111111111111111111111111111111" then some sampleRow else none)
    sampleRow rfl rfl (by decide) rfl (by decide) (by decide) (by decide) (by decide)
  refine ⟨?_, h.2.1 (Or.inr rfl)⟩
  have h1 := h.1
  simp only [show sampleStatusMap 3 = .REJECTED from rfl] at h1
  simpa using h1

/-- C10: `getL1TokenAllowListEvents` skips — emitting no record and exactly one
warning — every decoded `StatusUpdated` log whose `addr` argument is absent or
whose `status` argument is absent or equal to the number 0: the guard uses
JavaScript falsiness, so a present status code 0 is treated exactly like a
missing status and never produces an output record, and processing of the
remaining logs continues. -/
theorem allowlist_falsy_status_skipped :
    ∀ (statusMap : Nat → AllowListStatus) (l : StatusLog) (rest : List StatusLog),
      (l.addr = none ∨ l.status = none ∨ l.status = some 0) →
      processStatusLog statusMap l = .ok (none, some (allowListWarning l)) ∧
      scanStatusLogs statusMap (l :: rest) =
        Except.map (fun x => (x.1, allowListWarning l :: x.2)) (scanStatusLogs statusMap rest) := by
  intro statusMap l rest h
  have hp : processStatusLog statusMap l = .ok (none, some (allowListWarning l)) := by
    unfold processStatusLog
    rcases h with h | h | h <;> simp [h, jsFalsyString, jsFalsyNumber]
  refine ⟨hp, ?_⟩
  rw [scanStatusLogs, hp]
  cases hres : scanStatusLogs statusMap rest <;> simp [Except.map]

/-- Witness for C10 at concrete inputs: a `StatusUpdated` log with a present
address and the literal status code 0 produces no record and one warning, both
alone and ahead of the valid `sampleStatusLog`. -/
theorem allowlist_falsy_status_skipped_witness :
    processStatusLog sampleStatusMap
        ⟨"StatusUpdated", some "0xABCDEF1111111111111111111111111111111111", some 0, "0xz"⟩ =
      .ok (none, some (allowListWarning
        ⟨"StatusUpdated", some "0xABCDEF1111111111111111111111111111111111", some 0, "0xz"⟩)) := by
  exact (allowlist_falsy_status_skipped sampleStatusMap
    ⟨"StatusUpdated", some "0xABCDEF1111111111111111111111111111111111", some 0, "0xz"⟩ []
    (Or.inr (Or.inr rfl))).1

/-! ## CollectorService poll cycle -/

/-- With a non-zero cursor the scan window starts right after it, whatever the
configured start block. -/
lemma computeFromBlock_of_ne_zero (s c : Nat) (hc : c ≠ 0) : computeFromBlock s c = c + 1 := by
  unfold computeFromBlock
  simp [hc]

/-- The L1 cursor after `pollCore` is either unchanged or the computed L1
to-block of a window whose from-block did not exceed the head. -/
lemma pollCore_l1Cursor_char (f1 f2 : Nat) (cfg : ServiceConfig) (env : PollEnv)
    (st : CollectorState) :
    (pollCore f1 f2 cfg env st).2.1.l1Cursor = st.l1Cursor ∨
      ((pollCore f1 f2 cfg env st).2.1.l1Cursor = computeToBlock f1 cfg.l1.chunkSize env.l1Head ∧
        f1 ≤ env.l1Head) := by
  simp only [pollCore]
  split_ifs with h1 h2 h3 <;> simp_all

/-- The L2 cursor after `pollCore` is either unchanged or the computed L2
to-block of a window whose from-block did not exceed the head. -/
lemma pollCore_l2Cursor_char (f1 f2 : Nat) (cfg : ServiceConfig) (env : PollEnv)
    (st : CollectorState) :
    (pollCore f1 f2 cfg env st).2.1.l2Cursor = st.l2Cursor ∨
      ((pollCore f1 f2 cfg env st).2.1.l2Cursor = computeToBlock f2 cfg.l2.chunkSize env.l2Head ∧
        f2 ≤ env.l2Head) := by
  simp only [pollCore]
  split_ifs with h1 h2 h3 <;> simp_all

/-- One `poll()` call never moves either cursor backwards. -/
lemma poll_cursor_mono (cfg : ServiceConfig) (env : PollEnv) (st : CollectorState) :
    st.l1Cursor ≤ (poll cfg env st).2.1.l1Cursor ∧
      st.l2Cursor ≤ (poll cfg env st).2.1.l2Cursor := by
  constructor
  · rcases pollCore_l1Cursor_char (computeFromBlock cfg.l1.startBlock st.l1Cursor)
      (computeFromBlock cfg.l2.startBlock st.l2Cursor) cfg env st with h | ⟨h, hle⟩
    · exact le_of_eq (by rw [← h]; rfl)
    · rw [show (poll cfg env st) = pollCore (computeFromBlock cfg.l1.startBlock st.l1Cursor)
        (computeFromBlock cfg.l2.startBlock st.l2Cursor) cfg env st from rfl, h]
      by_cases hc : st.l1Cursor = 0
      · omega
      · rw [computeFromBlock_of_ne_zero _ _ hc] at hle ⊢
        unfold computeToBlock
        have h1 : st.l1Cursor ≤ st.l1Cursor + 1 + cfg.l1.chunkSize - 1 := by omega
        have h2 : st.l1Cursor ≤ env.l1Head := by omega
        exact le_min h1 h2
  · rcases pollCore_l2Cursor_char (computeFromBlock cfg.l1.startBlock st.l1Cursor)
      (computeFromBlock cfg.l2.startBlock st.l2Cursor) cfg env st with h | ⟨h, hle⟩
    · exact le_of_eq (by rw [← h]; rfl)
    · rw [show (poll cfg env st) = pollCore (computeFromBlock cfg.l1.startBlock st.l1Cursor)
        (computeFromBlock cfg.l2.startBlock st.l2Cursor) cfg env st from rfl, h]
      by_cases hc : st.l2Cursor = 0
      · omega
      · rw [computeFromBlock_of_ne_zero _ _ hc] at hle ⊢
        unfold computeToBlock
        have h1 : st.l2Cursor ≤ st.l2Cursor + 1 + cfg.l2.chunkSize - 1 := by omega
        have h2 : st.l2Cursor ≤ env.l2Head := by omega
        exact le_min h1 h2

/-- Any L1 scan action emitted by `pollCore` carries exactly the computed L1
window, and only when the from-block did not exceed the head. -/
lemma pollCore_scanL1_mem (f1 f2 : Nat) (cfg : ServiceConfig) (env : PollEnv)
    (st : CollectorState) (f t : Nat)
    (hm : PollAction.scanL1 f t ∈ (pollCore f1 f2 cfg env st).2.2) :
    f = f1 ∧ t = computeToBlock f1 cfg.l1.chunkSize env.l1Head ∧ f1 ≤ env.l1Head := by
  simp only [pollCore] at hm
  split_ifs at hm <;> simp_all

/-- Any L2 scan action emitted by `pollCore` carries exactly the computed L2
window, and only when the from-block did not exceed the head. -/
lemma pollCore_scanL2_mem (f1 f2 : Nat) (cfg : ServiceConfig) (env : PollEnv)
    (st : CollectorState) (f t : Nat)
    (hm : PollAction.scanL2 f t ∈ (pollCore f1 f2 cfg env st).2.2) :
    f = f2 ∧ t = computeToBlock f2 cfg.l2.chunkSize env.l2Head ∧ f2 ≤ env.l2Head := by
  simp only [pollCore] at hm
  split_ifs at hm <;> simp_all

/-- C4 (backfill): whenever an override start block is configured for a chain,
every `poll()` call resolves that chain's from-block to the override — the
stored cursor is ignored — and any scan window it opens for that chain starts
exactly at the override block; this holds for either chain and for every
state, so for every poll until the process exits. -/
theorem backfill_override_wins :
    (∀ (cfg : OverrideServiceConfig) (env : PollEnv) (st : CollectorState) (o f t : Nat),
      cfg.l1OverrideStartBlock = some o →
      PollAction.scanL1 f t ∈ (pollWithOverride cfg env st).2.2 →
      f = o ∧
        computeFromBlockWithOverride cfg.l1OverrideStartBlock cfg.base.l1.startBlock
          st.l1Cursor = o) ∧
    (∀ (cfg : OverrideServiceConfig) (env : PollEnv) (st : CollectorState) (o f t : Nat),
      cfg.l2OverrideStartBlock = some o →
      PollAction.scanL2 f t ∈ (pollWithOverride cfg env st).2.2 →
      f = o ∧
        computeFromBlockWithOverride cfg.l2OverrideStartBlock cfg.base.l2.startBlock
          st.l2Cursor = o) := by
  constructor
  · intro cfg env st o f t hov hm
    have hres := pollCore_scanL1_mem
      (computeFromBlockWithOverride cfg.l1OverrideStartBlock cfg.base.l1.startBlock st.l1Cursor)
      (computeFromBlockWithOverride cfg.l2OverrideStartBlock cfg.base.l2.startBlock st.l2Cursor)
      cfg.base env st f t hm
    have ho : computeFromBlockWithOverride cfg.l1OverrideStartBlock cfg.base.l1.startBlock
        st.l1Cursor = o := by
      rw [hov]
      rfl
    exact ⟨by rw [hres.1, ho], ho⟩
  · intro cfg env st o f t hov hm
    have hres := pollCore_scanL2_mem
      (computeFromBlockWithOverride cfg.l1OverrideStartBlock cfg.base.l1.startBlock st.l1Cursor)
      (computeFromBlockWithOverride cfg.l2OverrideStartBlock cfg.base.l2.startBlock st.l2Cursor)
      cfg.base env st f t hm
    have ho : computeFromBlockWithOverride cfg.l2OverrideStartBlock cfg.base.l2.startBlock
        st.l2Cursor = o := by
      rw [hov]
      rfl
    exact ⟨by rw [hres.1, ho], ho⟩

/-- Witness for C4 at concrete inputs: with an L1 override 17 and stored
cursor 5, the emitted L1 scan window of `pollWithOverride` starts at 17; with
an L2 override 3 and stored cursor 6, the emitted L2 scan window starts at 3. -/
theorem backfill_override_wins_witness :
    ((17 : Nat) = 17 ∧
      computeFromBlockWithOverride sampleOverrideCfg.l1OverrideStartBlock
        sampleOverrideCfg.base.l1.startBlock sampleState.l1Cursor = 17) ∧
    ((3 : Nat) = 3 ∧
      computeFromBlockWithOverride sampleOverrideCfgL2.l2OverrideStartBlock
        sampleOverrideCfgL2.base.l2.startBlock sampleState.l2Cursor = 3) :=
  ⟨backfill_override_wins.1 sampleOverrideCfg sampleBackfillEnv sampleState 17 17 100 rfl
      (by decide),
    backfill_override_wins.2 sampleOverrideCfgL2 sampleBackfillEnv sampleState 3 3 4 rfl
      (by decide)⟩

/-- C5: when both computed from-blocks exceed the observed heads, `poll()`
returns `true`, leaves the state (cursors and store) unchanged, and performs no
scan, persistence or cursor-advance action at all. -/
theorem poll_caught_up_short_circuit :
    ∀ (cfg : ServiceConfig) (env : PollEnv) (st : CollectorState),
      computeFromBlock cfg.l1.startBlock st.l1Cursor > env.l1Head →
      computeFromBlock cfg.l2.startBlock st.l2Cursor > env.l2Head →
      poll cfg env st = (true, st, []) := by
  intro cfg env st h1 h2
  unfold poll pollCore
  simp [h1, h2]

/-- Witness for C5 at concrete inputs: cursors 5 and 6 against heads 3 and 4
short-circuit to `(true, state, no actions)`. -/
theorem poll_caught_up_short_circuit_witness :
    poll sampleCfg sampleEnv sampleState = (true, sampleState, []) :=
  poll_caught_up_short_circuit sampleCfg sampleEnv sampleState (by decide) (by decide)

/-- C6: every computed scan window is bounded: the to-block
`min(fromBlock + chunkSize - 1, head)` never exceeds the observed head, and
the window holds at most `chunkSize` blocks, for any from-block, positive
chunk size and head; consequently every scan action emitted by `poll()`
satisfies both bounds for its chain. -/
theorem scan_window_bounds :
    (∀ (f c h : Nat), 0 < c →
      computeToBlock f c h ≤ h ∧ ((computeToBlock f c h : ℤ) - (f : ℤ) + 1 ≤ (c : ℤ))) ∧
    (∀ (cfg : ServiceConfig) (env : PollEnv) (st : CollectorState) (f t : Nat),
      0 < cfg.l1.chunkSize → PollAction.scanL1 f t ∈ (poll cfg env st).2.2 →
        t ≤ env.l1Head ∧ ((t : ℤ) - (f : ℤ) + 1 ≤ (cfg.l1.chunkSize : ℤ))) ∧
    (∀ (cfg : ServiceConfig) (env : PollEnv) (st : CollectorState) (f t : Nat),
      0 < cfg.l2.chunkSize → PollAction.scanL2 f t ∈ (poll cfg env st).2.2 →
        t ≤ env.l2Head ∧ ((t : ℤ) - (f : ℤ) + 1 ≤ (cfg.l2.chunkSize : ℤ))) := by
  have hbound : ∀ (f c h : Nat), 0 < c →
      computeToBlock f c h ≤ h ∧ ((computeToBlock f c h : ℤ) - (f : ℤ) + 1 ≤ (c : ℤ)) := by
    intro f c h hc
    unfold computeToBlock
    have h1 := Nat.min_le_left (f + c - 1) h
    have h2 := Nat.min_le_right (f + c - 1) h
    constructor
    · exact h2
    · omega
  refine ⟨hbound, ?_, ?_⟩
  · intro cfg env st f t hc hm
    obtain ⟨hf, ht, hle⟩ := pollCore_scanL1_mem (computeFromBlock cfg.l1.startBlock st.l1Cursor)
      (computeFromBlock cfg.l2.startBlock st.l2Cursor) cfg env st f t hm
    subst hf ht
    exact hbound _ _ _ hc
  · intro cfg env st f t hc hm
    obtain ⟨hf, ht, hle⟩ := pollCore_scanL2_mem (computeFromBlock cfg.l1.startBlock st.l1Cursor)
      (computeFromBlock cfg.l2.startBlock st.l2Cursor) cfg env st f t hm
    subst hf ht
    exact hbound _ _ _ hc

/-- Witness for C6 at concrete inputs: from-block 1000, chunk 1000, head 1500
gives to-block 1500, within both bounds. -/
theorem scan_window_bounds_witness :
    computeToBlock 1000 1000 1500 ≤ 1500 ∧
      ((computeToBlock 1000 1000 1500 : ℤ) - (1000 : ℤ) + 1 ≤ (1000 : ℤ)) :=
  scan_window_bounds.1 1000 1000 1500 (by decide)

/-- C7: across any sequence of successful `poll()` calls each chain's stored
cursor is non-decreasing: a single call never lowers either cursor (every
cursor write stores a value at least the previously stored one), and along a
whole trace of calls the cursors only grow. -/
theorem poll_cursor_monotonic :
    (∀ (cfg : ServiceConfig) (env : PollEnv) (st : CollectorState),
      st.l1Cursor ≤ (poll cfg env st).2.1.l1Cursor ∧
        st.l2Cursor ≤ (poll cfg env st).2.1.l2Cursor) ∧
    (∀ (cfg : ServiceConfig) (envs : List PollEnv) (st : CollectorState),
      st.l1Cursor ≤ (pollTrace cfg envs st).l1Cursor ∧
        st.l2Cursor ≤ (pollTrace cfg envs st).l2Cursor) := by
  refine ⟨poll_cursor_mono, ?_⟩
  intro cfg envs
  induction envs with
  | nil =>
      intro st
      exact ⟨le_refl _, le_refl _⟩
  | cons e rest ih =>
      intro st
      have h1 := poll_cursor_mono cfg e st
      have h2 := ih (pollStep cfg e st)
      exact ⟨le_trans h1.1 h2.1, le_trans h1.2 h2.2⟩

end Turnstile
